import Mathlib

/-
Verification development for the WNV-ETL-Lab2 repository.

The repository's reimplementable core is the extract -> geocode -> transform
pipeline, duplicated (with small variations) across Lab2ETL.py,
GSheetsETL_Lab2.py and final_project2.py.  This file gives a shallow
embedding of that core:

* Python float values are modelled by `PyFloat`: a finite decimal value
  `m * 10 ^ e` (`Dec`), positive or negative infinity, or NaN.  The
  behaviour of Python's `float(string)` conversion is modelled by
  `pyFloatParse` (optional surrounding whitespace, optional sign, the
  case-insensitive keywords inf / infinity / nan, otherwise a decimal
  mantissa with optional fraction and optional exponent part).  Underscore
  digit separators, unicode whitespace beyond the ASCII class, and the sign
  of zero are not modelled.  Printing a float (`str(x)` in Python) is
  modelled by `pyStr`, which renders the exact decimal value in
  mantissa-exponent form; faithfulness to CPython here means determinism
  and the round-trip property float(str(x)) == x, which `pyStr` satisfies
  (theorem `pyFloatParse_pyStr` below).
* Network effects are passed in as oracles: the geocoding HTTP layer is a
  function from the queried address to an `HttpResult`, and the extract
  step consumes a `FetchOutcome`.
* File-system effects of the transform step are modelled by an optional
  pre-existing output file, a `locked` flag (a locked file is one whose
  deletion raises PermissionError), and the resulting output file contents.
-/

set_option maxHeartbeats 1000000

namespace WnvEtl

/-- Decimal digit characters. -/
def decDigitChars : List Char := ['0', '1', '2', '3', '4', '5', '6', '7', '8', '9']

/-- Character for the decimal digit `n` (for `n < 10`). -/
def digitChar (n : Nat) : Char :=
  if n = 0 then '0' else if n = 1 then '1' else if n = 2 then '2'
  else if n = 3 then '3' else if n = 4 then '4' else if n = 5 then '5'
  else if n = 6 then '6' else if n = 7 then '7' else if n = 8 then '8' else '9'

/-- Fuel-driven digit printer (most significant digit first); structural in
the fuel so that it reduces inside the kernel. -/
def natDigitsFuel : Nat → Nat → List Char → List Char
  | 0, n, acc => digitChar n :: acc
  | fuel + 1, n, acc =>
    if n < 10 then digitChar n :: acc
    else natDigitsFuel fuel (n / 10) (digitChar (n % 10) :: acc)

/-- Decimal digit string of a natural number, most significant digit first. -/
def natDigits (n : Nat) : List Char := natDigitsFuel n n []

/-- Numeric value of a digit string (the accumulator form used by the float
parser). -/
def digitsVal (cs : List Char) : Nat :=
  cs.foldl (fun a c => a * 10 + (c.toNat - 48)) 0

/-- Finite decimal value `m * 10 ^ e` (the model of a finite Python float;
every value this program ever builds a float from is a decimal literal). -/
structure Dec where
  m : Int
  e : Int
deriving DecidableEq

/-- Model of a Python float value: finite decimal, signed infinity, or NaN. -/
inductive PyFloat where
  | finite (d : Dec)
  | inf (neg : Bool)
  | nan
deriving DecidableEq

/-- Does the float model a finite number (neither an infinity nor NaN)? -/
def isFinite : PyFloat → Bool
  | .finite _ => true
  | _ => false

/-- The apostrophe character (written by code point to keep the source free of
quote characters inside character literals). -/
def aposChar : Char := Char.ofNat 39

/-- The double-quote character, by code point. -/
def quoteChar : Char := Char.ofNat 34

/-- ASCII whitespace recognised by the modelled `str.strip` / `float`. -/
def isWsChar (c : Char) : Bool :=
  c == ' ' || c == Char.ofNat 9 || c == Char.ofNat 10 || c == Char.ofNat 13 ||
    c == Char.ofNat 11 || c == Char.ofNat 12

/-- Strip leading and trailing whitespace from a character list (model of
`str.strip()` and of the whitespace tolerance of `float()`). -/
def stripWs (cs : List Char) : List Char :=
  ((cs.dropWhile isWsChar).reverse.dropWhile isWsChar).reverse

/-- Split an optional leading sign off a character list; returns (negative?,
rest). -/
def splitSign (cs : List Char) : Bool × List Char :=
  match cs with
  | [] => (false, [])
  | c :: rest =>
    if c = '-' then (true, rest)
    else if c = '+' then (false, rest)
    else (false, cs)

/-- Split a character list at the first exponent marker `e` / `E`. -/
def splitAtExp (cs : List Char) : List Char × Option (List Char) :=
  match cs with
  | [] => ([], none)
  | c :: rest =>
    if c = 'e' ∨ c = 'E' then ([], some rest)
    else
      let p := splitAtExp rest
      (c :: p.1, p.2)

/-- Split a character list at the first decimal point. -/
def splitAtDot (cs : List Char) : List Char × Option (List Char) :=
  match cs with
  | [] => ([], none)
  | c :: rest =>
    if c = '.' then ([], some rest)
    else
      let p := splitAtDot rest
      (c :: p.1, p.2)

/-- Signed integer from a sign flag and a magnitude. -/
def intOfSign (neg : Bool) (n : Nat) : Int :=
  if neg then -(n : Int) else (n : Int)

/-- Lower-case spelling of the infinity keyword accepted by `float()`. -/
def lowerInf : List Char := ['i', 'n', 'f']

/-- Lower-case spelling of the long infinity keyword accepted by `float()`. -/
def lowerInfinity : List Char := ['i', 'n', 'f', 'i', 'n', 'i', 't', 'y']

/-- Lower-case spelling of the NaN keyword accepted by `float()`. -/
def lowerNan : List Char := ['n', 'a', 'n']

/-- Model of Python's `float(string)` conversion on a character list: strip
surrounding whitespace, take an optional sign, accept the case-insensitive
keywords inf / infinity / nan, otherwise parse `digits[.digits][(e|E)[sign]digits]`
with at least one mantissa digit.  Any other shape raises ValueError in
Python, modelled as `none`. -/
def pyFloatParseChars (cs0 : List Char) : Option PyFloat :=
  let sp := splitSign (stripWs cs0)
  let neg := sp.1
  let cs := sp.2
  let low := cs.map Char.toLower
  if low = lowerInf ∨ low = lowerInfinity then some (PyFloat.inf neg)
  else if low = lowerNan then some PyFloat.nan
  else
    let me := splitAtExp cs
    let md := splitAtDot me.1
    let ip := md.1
    let fp := md.2.getD []
    let digs := ip ++ fp
    if ip.all Char.isDigit ∧ fp.all Char.isDigit ∧ digs ≠ [] then
      match me.2 with
      | none =>
        some (PyFloat.finite ⟨intOfSign neg (digitsVal digs), -(fp.length : Int)⟩)
      | some ecs =>
        let esp := splitSign ecs
        if esp.2 ≠ [] ∧ esp.2.all Char.isDigit then
          some (PyFloat.finite ⟨intOfSign neg (digitsVal digs),
            intOfSign esp.1 (digitsVal esp.2) - (fp.length : Int)⟩)
        else none
    else none

/-- Model of Python's `float(string)` on a string. -/
def pyFloatParse (s : String) : Option PyFloat := pyFloatParseChars s.data

/-- Decimal character rendering of an integer (sign plus digits). -/
def intChars (m : Int) : List Char :=
  if m < 0 then '-' :: natDigits m.natAbs else natDigits m.natAbs

/-- Character rendering of a Python float value (model of `str(x)`): finite
values in exact mantissa-exponent form, `inf` / `-inf` / `nan` for the
special values.  CPython prints the shortest decimal string that round-trips;
the model keeps the round-trip guarantee `float(str(x)) == x` while printing
the exact decimal value. -/
def pyStrChars : PyFloat → List Char
  | .finite d => intChars d.m ++ 'e' :: intChars d.e
  | .inf false => ['i', 'n', 'f']
  | .inf true => ['-', 'i', 'n', 'f']
  | .nan => ['n', 'a', 'n']

/-- String rendering of a Python float value (model of `str(x)`). -/
def pyStr (v : PyFloat) : String := ⟨pyStrChars v⟩

/-- Model of `str(x).strip().replace` removing apostrophes and double quotes
(Lab2ETL.py lines 76-77 and final_project2.py lines 115-116): strip
surrounding whitespace first, then delete every apostrophe and double-quote
character. -/
def stripClean (s : String) : String :=
  ⟨(stripWs s.data).filter fun c => !(c == aposChar || c == quoteChar)⟩

/-- First element of the JSON array returned by the geocoding endpoint, as the
transform reads it: the `lon` / `lat` keys may be absent (`none` models a
KeyError on access). -/
structure GeoEntry where
  lon : Option String
  lat : Option String
deriving DecidableEq

/-- Outcome of the HTTP request inside `nominatim_geocode`: `ok results` is a
2xx response whose body parsed as a JSON array; `exn` covers every outcome in
which `requests.get`, `raise_for_status` or `response.json()` raises (HTTP
error status, timeout, transport failure, malformed body). -/
inductive HttpResult where
  | ok (results : List GeoEntry)
  | exn
deriving DecidableEq

/-- Model of `nominatim_geocode` (Lab2ETL.py lines 22-45, GSheetsETL_Lab2.py
lines 41-64, final_project2.py lines 48-82).  The HTTP layer is an oracle
from the queried address to an `HttpResult`.  Inside the `try`: a raised
request (`exn`) is caught and yields None; an empty result array takes the
`else` branch and yields None; a missing `lon` / `lat` key raises KeyError,
and an unparseable coordinate string makes `float()` raise ValueError — both
are caught by the bare `except Exception` and yield None.  The Python value
`(None, None)` is modelled as `none`; a successful pair as `some (x, y)`.
The function is total: no exception escapes to the caller. -/
def nominatim_geocode (http : String → HttpResult) (address : String) :
    Option (PyFloat × PyFloat) :=
  match http address with
  | .exn => none
  | .ok [] => none
  | .ok (entry :: _) =>
    match entry.lon, entry.lat with
    | some lonS, some latS =>
      match pyFloatParse lonS, pyFloatParse latS with
      | some x, some y => some (x, y)
      | _, _ => none
    | _, _ => none

/-- Geocoder contract written from the spec sentence for claim C2: on HTTP
success with at least one result, parse the first result's longitude and
latitude as floats; any other outcome (HTTP error, timeout, empty result
array, malformed body, missing key, unparseable coordinate) yields the
not-found value. -/
def geocodeSpec : HttpResult → Option (PyFloat × PyFloat)
  | .ok (entry :: _) =>
    match entry.lon, entry.lat with
    | some lonS, some latS =>
      match pyFloatParse lonS, pyFloatParse latS with
      | some x, some y => some (x, y)
      | _, _ => none
    | _, _ => none
  | _ => none

/-- Model of row access through `csv.DictReader`: the row dictionary is
`dict(zip(fieldnames, row))` with missing trailing cells filled with None, so
a duplicated column name keeps the last occurrence.  `none` models a KeyError
on `row[col]`; `some none` models a cell holding Python None (a row shorter
than the header). -/
def dictGet (header vals : List String) (col : String) : Option (Option String) :=
  ((header.enum.map fun p => (p.2, vals[p.1]?)).reverse).lookup col

/-- A fetched input CSV: header line plus data rows, as `csv.DictReader`
sees them. -/
structure InputCsv where
  header : List String
  rows : List (List String)

/-- Observable events of one transform run that the claims talk about: the
geocode call for a row, the fixed one-second sleep, and the printed locked
file report. -/
inductive Event where
  | geocodeCall (address : String)
  | sleep
  | lockedReport
deriving DecidableEq

/-- Python exception classes that can escape the Lab2ETL transform row loop. -/
inductive PyErr where
  | keyError
  | typeError
deriving DecidableEq

/-- Result of one transform run: the output file contents after the run
(`none` if the file was never created), the event trace, and the exception
that escaped the step, if any. -/
structure TransResult where
  fileLines : Option (List String)
  trace : List Event
  err : Option PyErr
deriving DecidableEq

/-- Output CSV header line written by the transform. -/
def headerLine : String := "x,y,Type"

/-- Data line written for a geocoded row: `writer.writerow([x, y,
"Residential"])` with the two floats rendered by `str`. -/
def outLine (x y : PyFloat) : String :=
  pyStr x ++ "," ++ pyStr y ++ ",Residential"

/-- Body of the `if x is not None and y is not None` block of Lab2ETL.py
lines 74-80 (identical in final_project2.py lines 113-119): geocode the
address; when a coordinate pair came back, re-parse both components through
`float(str(v).strip().replace(...))`, emitting the row only when both
re-parses succeed (the ValueError handler skips the row without writing a
default). -/
def rowLine (http : String → HttpResult) (address : String) : Option String :=
  match nominatim_geocode http address with
  | none => none
  | some (x, y) =>
    match pyFloatParse (stripClean (pyStr x)),
        pyFloatParse (stripClean (pyStr y)) with
    | some xc, some yc => some (outLine xc yc)
    | _, _ => none

/-- Row loop of `transform` in Lab2ETL.py lines 66-80 (identical in
final_project2.py lines 106-119): look up the `Street Address` cell (KeyError
if the column is absent; TypeError on the `+` if the cell is None), append
the locality suffix, geocode, sleep, and write the row `rowLine` produced, if
any.  Returns (written data lines, event trace, escaped exception if any). -/
def processRows (http : String → HttpResult) (header : List String) :
    List (List String) → List String × List Event × Option PyErr
  | [] => ([], [], none)
  | vals :: rest =>
    match dictGet header vals "Street Address" with
    | none => ([], [], some PyErr.keyError)
    | some none => ([], [], some PyErr.typeError)
    | some (some sa) =>
      let address := sa ++ " Boulder CO"
      let line := rowLine http address
      let r := processRows http header rest
      (line.toList ++ r.1, Event.geocodeCall address :: Event.sleep :: r.2.1, r.2.2)

/-- Row loop of `GSheetsEtl.transform` in GSheetsETL_Lab2.py lines 84-93: the
same loop without the re-parse; a returned pair is written directly. -/
def processRowsG (http : String → HttpResult) (header : List String) :
    List (List String) → List String × List Event × Option PyErr
  | [] => ([], [], none)
  | vals :: rest =>
    match dictGet header vals "Street Address" with
    | none => ([], [], some PyErr.keyError)
    | some none => ([], [], some PyErr.typeError)
    | some (some sa) =>
      let address := sa ++ " Boulder CO"
      let line : Option String :=
        (nominatim_geocode http address).map fun p => outLine p.1 p.2
      let r := processRowsG http header rest
      (line.toList ++ r.1, Event.geocodeCall address :: Event.sleep :: r.2.1, r.2.2)

/-- Model of `transform` in Lab2ETL.py lines 48-80.  File-system effects:
`oldOut` is the pre-existing output file (if any) and `locked` says whether
deleting it raises PermissionError.  If the file exists and is locked, the
step prints the locked-file message and returns before opening either file;
otherwise the old file is deleted (when present), the header is written, and
the row loop runs.  An exception escaping the row loop leaves the lines
written so far in the (closed) output file. -/
def transform (locked : Bool) (oldOut : Option (List String)) (inp : InputCsv)
    (http : String → HttpResult) : TransResult :=
  if oldOut.isSome ∧ locked then
    { fileLines := oldOut, trace := [Event.lockedReport], err := none }
  else
    let r := processRows http inp.header inp.rows
    { fileLines := some (headerLine :: r.1), trace := r.2.1, err := r.2.2 }

/-- Model of `GSheetsEtl.transform` in GSheetsETL_Lab2.py lines 66-95: same
delete-first policy around the `processRowsG` row loop. -/
def transformG (locked : Bool) (oldOut : Option (List String)) (inp : InputCsv)
    (http : String → HttpResult) : TransResult :=
  if oldOut.isSome ∧ locked then
    { fileLines := oldOut, trace := [Event.lockedReport], err := none }
  else
    let r := processRowsG http inp.header inp.rows
    { fileLines := some (headerLine :: r.1), trace := r.2.1, err := r.2.2 }

/-- Line the spec expects the transform to emit for one input row (written
from the spec sentences behind claims C1 and C6): the geocoded coordinate
pair of the suffixed street address, or nothing when the geocoder reports
not-found or the row is malformed. -/
def resolvedLine (http : String → HttpResult) (header vals : List String) :
    Option String :=
  match dictGet header vals "Street Address" with
  | some (some sa) =>
    (nominatim_geocode http (sa ++ " Boulder CO")).map fun p => outLine p.1 p.2
  | _ => none

/-- Events one processable row contributes to the trace. -/
def rowEvents (header vals : List String) : List Event :=
  match dictGet header vals "Street Address" with
  | some (some sa) => [Event.geocodeCall (sa ++ " Boulder CO"), Event.sleep]
  | _ => []

/-- Does the row have a non-None `Street Address` cell? -/
def isGoodRow (header vals : List String) : Bool :=
  match dictGet header vals "Street Address" with
  | some (some _) => true
  | _ => false

/-- Every data row of the input has a non-None `Street Address` cell. -/
def wellFormed (inp : InputCsv) : Bool := inp.rows.all (isGoodRow inp.header)

/-- Is the event the fixed one-second sleep? -/
def isSleep : Event → Bool
  | .sleep => true
  | _ => false

/-- Throttle discipline check: scanning the trace, a geocode call is rejected
if the previous geocode call has not yet been followed by a sleep.  The flag
records a pending un-slept geocode call. -/
def throttleOkAux : Bool → List Event → Bool
  | _, [] => true
  | pending, ev :: rest =>
    match ev with
    | .geocodeCall _ => if pending then false else throttleOkAux true rest
    | .sleep => throttleOkAux false rest
    | _ => throttleOkAux pending rest

/-- The trace never performs two geocode calls without a sleep in between. -/
def throttleOk (t : List Event) : Bool := throttleOkAux false t

/-- Outcome of the single GET request the extract step issues. -/
inductive FetchOutcome where
  | ok (body : String)
  | netError
deriving DecidableEq

/-- Result of one extract run: the file written (if any), whether the step
reported a failure (printed or logged an error line), whether an exception
propagated to the caller, and how many GET requests were issued. -/
structure ExtractResult where
  written : Option String
  reported : Bool
  raised : Bool
  getCalls : Nat
deriving DecidableEq

/-- Model of `extract` in Lab2ETL.py lines 12-19 (and `GSheetsEtl.extract`,
GSheetsETL_Lab2.py lines 28-39): one `requests.get` with no try / except.  On
success the body is written verbatim; if the request raises, the exception
propagates uncaught, nothing is written and no error is reported by the
step. -/
def extract : FetchOutcome → ExtractResult
  | .ok body => ⟨some body, false, false, 1⟩
  | .netError => ⟨none, false, true, 1⟩

/-- Model of `extract` in final_project2.py lines 31-45: the same single GET
wrapped in `try / except Exception`, which prints the error and returns
normally, so a failure is reported but never propagates. -/
def extractFP2 : FetchOutcome → ExtractResult
  | .ok body => ⟨some body, false, false, 1⟩
  | .netError => ⟨none, true, false, 1⟩

/-- Concrete geocoder oracle used by witnesses: resolves one address to the
pair (-105.27, 40.01), every other query returns an empty result array. -/
def wHttp : String → HttpResult := fun a =>
  if a = "1234 Main St Boulder CO" then
    HttpResult.ok [⟨some "-105.27", some "40.01"⟩]
  else HttpResult.ok []

/-- Concrete one-row input used by witnesses. -/
def wInp : InputCsv := ⟨["Street Address"], [["1234 Main St"]]⟩

/-- Concrete oracle whose request always raises. -/
def exnHttp : String → HttpResult := fun _ => HttpResult.exn

/-- Oracle answering every query with a result whose longitude string is
`inf`: accepted by Python `float()`, hence it flows through the transform. -/
def cexHttp : String → HttpResult :=
  fun _ => HttpResult.ok [⟨some "inf", some "40.01"⟩]

/-- Concrete one-row input used by the C5 counterexample. -/
def cexInp : InputCsv := ⟨["Street Address"], [["10 Elm St"]]⟩

theorem digitChar_mem (n : Nat) : digitChar n ∈ decDigitChars := by
  unfold digitChar
  repeat' split
  all_goals simp [decDigitChars]

theorem digitChar_toNat (n : Nat) (h : n < 10) : (digitChar n).toNat = 48 + n := by
  interval_cases n <;> decide

/-- Fuel adequacy: with enough fuel the printer appends its digits in front of
the accumulator. -/
theorem natDigitsFuel_eq (n : Nat) :
    ∀ fuel acc, n ≤ fuel → natDigitsFuel fuel n acc = natDigits n ++ acc := by
  induction n using Nat.strong_induction_on with
  | _ n ih =>
    intro fuel acc hle
    by_cases h10 : n < 10
    · match fuel with
      | 0 =>
        have hn : n = 0 := by omega
        subst hn
        simp [natDigitsFuel, natDigits]
      | f + 1 =>
        rw [natDigitsFuel, if_pos h10]
        match n, h10 with
        | 0, _ => simp [natDigits, natDigitsFuel]
        | m + 1, h10 => rw [natDigits, natDigitsFuel, if_pos h10] ; simp
    · match fuel with
      | 0 => omega
      | f + 1 =>
        rw [natDigitsFuel, if_neg h10]
        have hlt : n / 10 < n := Nat.div_lt_self (by omega) (by omega)
        rw [ih (n / 10) hlt f _ (by omega)]
        conv_rhs =>
          rw [show n = (n - 1) + 1 by omega, natDigits, natDigitsFuel]
        rw [if_neg (show ¬ (n - 1) + 1 < 10 by omega)]
        rw [show (n - 1) + 1 = n by omega]
        rw [ih (n / 10) hlt (n - 1) _ (by omega)]
        simp

theorem natDigits_lt (n : Nat) (h : n < 10) : natDigits n = [digitChar n] := by
  match n, h with
  | 0, _ => simp [natDigits, natDigitsFuel]
  | m + 1, h => rw [natDigits, natDigitsFuel, if_pos h]

theorem natDigits_ge (n : Nat) (h : 10 ≤ n) :
    natDigits n = natDigits (n / 10) ++ [digitChar (n % 10)] := by
  match n, h with
  | m + 1, h =>
    rw [natDigits, natDigitsFuel, if_neg (by omega)]
    exact natDigitsFuel_eq _ _ _ (by
      have : (m + 1) / 10 < m + 1 := Nat.div_lt_self (by omega) (by omega)
      omega)

theorem natDigits_ne_nil (n : Nat) : natDigits n ≠ [] := by
  by_cases h : n < 10
  · rw [natDigits_lt n h] ; simp
  · rw [natDigits_ge n (by omega)] ; simp

theorem natDigits_mem (n : Nat) : ∀ c ∈ natDigits n, c ∈ decDigitChars := by
  induction n using Nat.strong_induction_on with
  | _ n ih =>
    by_cases h : n < 10
    · rw [natDigits_lt n h]
      intro c hc
      simp at hc
      subst hc
      exact digitChar_mem n
    · rw [natDigits_ge n (by omega)]
      intro c hc
      rw [List.mem_append] at hc
      rcases hc with hc | hc
      · exact ih (n / 10) (Nat.div_lt_self (by omega) (by omega)) c hc
      · simp at hc
        subst hc
        exact digitChar_mem _

theorem digitsVal_append (l1 l2 : List Char) :
    digitsVal (l1 ++ l2) =
      l2.foldl (fun a c => a * 10 + (c.toNat - 48)) (digitsVal l1) := by
  unfold digitsVal
  rw [List.foldl_append]

theorem digitsVal_natDigits (n : Nat) : digitsVal (natDigits n) = n := by
  induction n using Nat.strong_induction_on with
  | _ n ih =>
    by_cases h : n < 10
    · rw [natDigits_lt n h]
      unfold digitsVal
      simp [digitChar_toNat n h]
    · rw [natDigits_ge n (by omega), digitsVal_append,
        ih (n / 10) (Nat.div_lt_self (by omega) (by omega))]
      simp [digitChar_toNat (n % 10) (by omega)]
      omega

theorem decDigit_props (c : Char) (h : c ∈ decDigitChars) :
    Char.toLower c = c ∧ Char.isDigit c = true ∧ isWsChar c = false ∧
      c ≠ '-' ∧ c ≠ '+' ∧ c ≠ 'e' ∧ c ≠ 'E' ∧ c ≠ '.' ∧ c ≠ 'i' ∧ c ≠ 'n' ∧
      c ≠ aposChar ∧ c ≠ quoteChar := by
  fin_cases h <;> decide

theorem dropWhile_eq_self {p : Char → Bool} {cs : List Char}
    (h : ∀ c ∈ cs, p c = false) : cs.dropWhile p = cs := by
  cases cs with
  | nil => rfl
  | cons c t => rw [List.dropWhile_cons, h c (by simp)] ; simp

theorem stripWs_eq_self {cs : List Char} (h : ∀ c ∈ cs, isWsChar c = false) :
    stripWs cs = cs := by
  unfold stripWs
  rw [dropWhile_eq_self h,
    dropWhile_eq_self (fun c hc => h c (List.mem_reverse.mp hc)),
    List.reverse_reverse]

theorem splitSign_cons_of_ne {c : Char} (rest : List Char) (h1 : c ≠ '-')
    (h2 : c ≠ '+') : splitSign (c :: rest) = (false, c :: rest) := by
  simp [splitSign, h1, h2]

theorem intChars_mem (m : Int) : ∀ c ∈ intChars m, c = '-' ∨ c ∈ decDigitChars := by
  unfold intChars
  split
  · intro c hc
    rcases List.mem_cons.mp hc with h | h
    · exact Or.inl h
    · exact Or.inr (natDigits_mem _ c h)
  · intro c hc
    exact Or.inr (natDigits_mem _ c hc)

theorem splitSign_intChars (m : Int) (rest : List Char) :
    splitSign (intChars m ++ rest) = (decide (m < 0), natDigits m.natAbs ++ rest) := by
  unfold intChars
  by_cases h : m < 0
  · rw [if_pos h]
    simp [splitSign, h]
  · rw [if_neg h]
    obtain ⟨d, ds, hd⟩ : ∃ d ds, natDigits m.natAbs = d :: ds := by
      cases hnd : natDigits m.natAbs with
      | nil => exact absurd hnd (natDigits_ne_nil _)
      | cons d ds => exact ⟨d, ds, rfl⟩
    have hp := decDigit_props d (natDigits_mem m.natAbs d (by rw [hd] ; simp))
    rw [hd, List.cons_append, splitSign_cons_of_ne _ hp.2.2.2.1 hp.2.2.2.2.1]
    simp [h]

theorem splitAtExp_append (l1 l2 : List Char)
    (h : ∀ c ∈ l1, ¬(c = 'e' ∨ c = 'E')) :
    splitAtExp (l1 ++ 'e' :: l2) = (l1, some l2) := by
  induction l1 with
  | nil => simp [splitAtExp]
  | cons c t ih =>
    rw [List.cons_append, splitAtExp, if_neg (h c (by simp)),
      ih (fun x hx => h x (by simp [hx]))]

theorem splitAtDot_no (l : List Char) (h : ∀ c ∈ l, c ≠ '.') :
    splitAtDot l = (l, none) := by
  induction l with
  | nil => simp [splitAtDot]
  | cons c t ih =>
    rw [splitAtDot, if_neg (h c (by simp)), ih (fun x hx => h x (by simp [hx]))]

theorem natDigits_all_digit (n : Nat) : (natDigits n).all Char.isDigit = true := by
  rw [List.all_eq_true]
  intro c hc
  exact (decDigit_props c (natDigits_mem n c hc)).2.1

theorem intOfSign_natAbs (m : Int) : intOfSign (decide (m < 0)) m.natAbs = m := by
  unfold intOfSign
  by_cases h : m < 0
  · rw [if_pos (decide_eq_true h), Int.ofNat_natAbs_of_nonpos (by omega)]
    omega
  · rw [if_neg (by simpa using h), Int.natAbs_of_nonneg (by omega)]

/-- Round trip at the heart of claims C1 and C10: re-parsing the printed form
of a Python float value recovers the value (model of the CPython guarantee
float(str(x)) == x, including the special values inf, -inf and nan). -/
theorem pyFloatParse_pyStr (v : PyFloat) : pyFloatParse (pyStr v) = some v := by
  cases v with
  | inf neg => cases neg <;> rfl
  | nan => rfl
  | finite d =>
    obtain ⟨m, e⟩ := d
    show pyFloatParseChars (intChars m ++ 'e' :: intChars e) = some (.finite ⟨m, e⟩)
    have hws : stripWs (intChars m ++ 'e' :: intChars e) =
        intChars m ++ 'e' :: intChars e := by
      apply stripWs_eq_self
      intro c hc
      rcases List.mem_append.mp hc with h | h
      · rcases intChars_mem m c h with h | h
        · subst h ; decide
        · exact (decDigit_props c h).2.2.1
      · rcases List.mem_cons.mp h with h | h
        · subst h ; decide
        · rcases intChars_mem e c h with h | h
          · subst h ; decide
          · exact (decDigit_props c h).2.2.1
    obtain ⟨dg, ds, hd⟩ : ∃ dg ds, natDigits m.natAbs = dg :: ds := by
      cases hnd : natDigits m.natAbs with
      | nil => exact absurd hnd (natDigits_ne_nil _)
      | cons dg ds => exact ⟨dg, ds, rfl⟩
    have hdg := decDigit_props dg (natDigits_mem m.natAbs dg (by rw [hd] ; simp))
    have hsplit := splitSign_intChars m ('e' :: intChars e)
    have hexp : splitAtExp (natDigits m.natAbs ++ 'e' :: intChars e) =
        (natDigits m.natAbs, some (intChars e)) := by
      apply splitAtExp_append
      intro c hc
      have hp := decDigit_props c (natDigits_mem m.natAbs c hc)
      rintro (h | h) <;> [exact hp.2.2.2.2.2.1 h ; exact hp.2.2.2.2.2.2.1 h]
    have hdot : splitAtDot (natDigits m.natAbs) = (natDigits m.natAbs, none) := by
      apply splitAtDot_no
      intro c hc
      exact (decDigit_props c (natDigits_mem m.natAbs c hc)).2.2.2.2.2.2.2.1
    obtain ⟨hglow, hgdig, hgws, hgdash, hgplus, hge, hgE, hgdot, hgi, hgn, hgap, hgq⟩ := hdg
    have hkw : ¬((natDigits m.natAbs ++ 'e' :: intChars e).map Char.toLower = lowerInf ∨
        (natDigits m.natAbs ++ 'e' :: intChars e).map Char.toLower = lowerInfinity) := by
      rw [hd, List.cons_append, List.map_cons, hglow]
      rintro (h | h) <;> (injection h with h1 h2 ; exact hgi h1)
    have hnan : ¬((natDigits m.natAbs ++ 'e' :: intChars e).map Char.toLower = lowerNan) := by
      rw [hd, List.cons_append, List.map_cons, hglow]
      intro h
      injection h with h1 _
      exact hgn h1
    have hse : splitSign (intChars e) = (decide (e < 0), natDigits e.natAbs) := by
      have h := splitSign_intChars e []
      simpa using h
    simp only [pyFloatParseChars, hws, hsplit, if_neg hkw, if_neg hnan, hexp, hdot,
      Option.getD_none, List.append_nil, hse]
    rw [if_pos ⟨natDigits_all_digit m.natAbs, by simp, by simp [natDigits_ne_nil]⟩]
    rw [if_pos ⟨natDigits_ne_nil e.natAbs, natDigits_all_digit e.natAbs⟩]
    rw [digitsVal_natDigits, digitsVal_natDigits, intOfSign_natAbs, intOfSign_natAbs]
    simp

theorem decDigit_clean (c : Char) (h : c ∈ decDigitChars) :
    isWsChar c = false ∧ c ≠ aposChar ∧ c ≠ quoteChar := by
  fin_cases h <;> decide

theorem pyStrChars_clean (v : PyFloat) :
    ∀ c ∈ pyStrChars v, isWsChar c = false ∧ c ≠ aposChar ∧ c ≠ quoteChar := by
  intro c hc
  cases v with
  | inf neg =>
    cases neg <;> (simp only [pyStrChars] at hc ; fin_cases hc <;> decide)
  | nan =>
    simp only [pyStrChars] at hc
    fin_cases hc <;> decide
  | finite d =>
    simp only [pyStrChars] at hc
    rcases List.mem_append.mp hc with h | h
    · rcases intChars_mem d.m c h with h | h
      · subst h ; decide
      · exact decDigit_clean c h
    · rcases List.mem_cons.mp h with h | h
      · subst h ; decide
      · rcases intChars_mem d.e c h with h | h
        · subst h ; decide
        · exact decDigit_clean c h

theorem stripClean_pyStr (v : PyFloat) : stripClean (pyStr v) = pyStr v := by
  unfold stripClean pyStr
  have hc := pyStrChars_clean v
  rw [show (String.mk (pyStrChars v)).data = pyStrChars v from rfl]
  rw [stripWs_eq_self (fun c h => (hc c h).1)]
  rw [List.filter_eq_self.mpr]
  intro c h
  obtain ⟨-, h1, h2⟩ := hc c h
  simp [h1, h2]

/-- The cleanup re-parse of a printed float value always succeeds and returns
the same value: formal content of the unreachable ValueError branch of claim
C10. -/
theorem reparse_pyStr (v : PyFloat) :
    pyFloatParse (stripClean (pyStr v)) = some v := by
  rw [stripClean_pyStr, pyFloatParse_pyStr]

theorem rowLine_eq (http : String → HttpResult) (address : String) :
    rowLine http address =
      (nominatim_geocode http address).map fun p => outLine p.1 p.2 := by
  unfold rowLine
  cases nominatim_geocode http address with
  | none => rfl
  | some p =>
    obtain ⟨x, y⟩ := p
    simp [reparse_pyStr]

theorem lookup_eq_none {l : List (String × Option String)} {col : String}
    (h : ∀ p ∈ l, p.1 ≠ col) : l.lookup col = none := by
  induction l with
  | nil => rfl
  | cons p t ih =>
    obtain ⟨k, v⟩ := p
    have hk : (col == k) = false := by
      apply beq_eq_false_iff_ne.mpr
      intro hc
      exact h (k, v) (by simp) (by simp [hc.symm])
    simp only [List.lookup, hk]
    exact ih (fun q hq => h q (by simp [hq]))

theorem dictGet_eq_none (header vals : List String) (col : String)
    (h : col ∉ header) : dictGet header vals col = none := by
  unfold dictGet
  apply lookup_eq_none
  intro p hp
  rw [List.mem_reverse] at hp
  obtain ⟨q, hq, rfl⟩ := List.mem_map.mp hp
  intro hc
  apply h
  have hmem : q.2 ∈ header.enum.map Prod.snd := List.mem_map_of_mem Prod.snd hq
  rw [List.enum_map_snd] at hmem
  exact hc ▸ hmem

theorem optToList_len {α : Type} (o : Option α) : o.toList.length ≤ 1 := by
  cases o <;> simp

theorem processRows_len (http : String → HttpResult) (header : List String) :
    ∀ rows : List (List String),
      (processRows http header rows).1.length ≤ rows.length := by
  intro rows
  induction rows with
  | nil => simp [processRows]
  | cons vals rest ih =>
    simp only [processRows]
    cases dictGet header vals "Street Address" with
    | none => simp
    | some o =>
      cases o with
      | none => simp
      | some sa =>
        simp only [List.length_append, List.length_cons]
        have := optToList_len (rowLine http (sa ++ " Boulder CO"))
        omega

/-- Under well-formed input, the row loop computes exactly the spec-level
filterMap of `resolvedLine`, produces the per-row geocode and sleep events in
order, and raises nothing. -/
theorem processRows_wf (http : String → HttpResult) (header : List String) :
    ∀ rows : List (List String), (∀ vals ∈ rows, isGoodRow header vals = true) →
      processRows http header rows =
        (rows.filterMap (resolvedLine http header),
          rows.flatMap (rowEvents header), none) := by
  intro rows
  induction rows with
  | nil => intro _ ; rfl
  | cons vals rest ih =>
    intro h
    have hv := h vals (by simp)
    unfold isGoodRow at hv
    cases hdg : dictGet header vals "Street Address" with
    | none => rw [hdg] at hv ; simp at hv
    | some o =>
      cases o with
      | none => rw [hdg] at hv ; simp at hv
      | some sa =>
        have hrest := ih (fun x hx => h x (by simp [hx]))
        simp only [processRows, hdg, hrest, List.filterMap_cons, List.flatMap_cons,
          resolvedLine, rowEvents, rowLine_eq]
        cases nominatim_geocode http (sa ++ " Boulder CO") with
        | none => simp
        | some p => simp

theorem processRowsG_wf (http : String → HttpResult) (header : List String) :
    ∀ rows : List (List String),
      processRows http header rows = processRowsG http header rows := by
  intro rows
  induction rows with
  | nil => rfl
  | cons vals rest ih =>
    simp only [processRows, processRowsG, ih]
    cases dictGet header vals "Street Address" with
    | none => rfl
    | some o =>
      cases o with
      | none => rfl
      | some sa => simp [rowLine_eq]

theorem throttleOkAux_flatMap (header : List String) :
    ∀ rows : List (List String), (∀ vals ∈ rows, isGoodRow header vals = true) →
      throttleOkAux false (rows.flatMap (rowEvents header)) = true := by
  intro rows
  induction rows with
  | nil => intro _ ; rfl
  | cons vals rest ih =>
    intro h
    have hv := h vals (by simp)
    unfold isGoodRow at hv
    cases hdg : dictGet header vals "Street Address" with
    | none => rw [hdg] at hv ; simp at hv
    | some o =>
      cases o with
      | none => rw [hdg] at hv ; simp at hv
      | some sa =>
        simp only [List.flatMap_cons, rowEvents, hdg, List.cons_append,
          List.nil_append]
        rw [show throttleOkAux false
            (Event.geocodeCall (sa ++ " Boulder CO") :: Event.sleep ::
              rest.flatMap (rowEvents header)) =
            throttleOkAux false (rest.flatMap (rowEvents header)) from rfl]
        exact ih (fun x hx => h x (by simp [hx]))

theorem sleeps_flatMap (header : List String) :
    ∀ rows : List (List String), (∀ vals ∈ rows, isGoodRow header vals = true) →
      ((rows.flatMap (rowEvents header)).filter isSleep).length = rows.length := by
  intro rows
  induction rows with
  | nil => intro _ ; rfl
  | cons vals rest ih =>
    intro h
    have hv := h vals (by simp)
    unfold isGoodRow at hv
    cases hdg : dictGet header vals "Street Address" with
    | none => rw [hdg] at hv ; simp at hv
    | some o =>
      cases o with
      | none => rw [hdg] at hv ; simp at hv
      | some sa =>
        simp only [List.flatMap_cons, rowEvents, hdg, List.cons_append,
          List.nil_append, List.filter, isSleep, List.length_cons]
        rw [ih (fun x hx => h x (by simp [hx]))]

theorem transform_unlocked (old : Option (List String)) (inp : InputCsv)
    (http : String → HttpResult) :
    transform false old inp http =
      { fileLines := some (headerLine :: (processRows http inp.header inp.rows).1),
        trace := (processRows http inp.header inp.rows).2.1,
        err := (processRows http inp.header inp.rows).2.2 } := by
  simp [transform]

theorem wellFormed_rows {inp : InputCsv} (hwf : wellFormed inp = true) :
    ∀ vals ∈ inp.rows, isGoodRow inp.header vals = true := by
  rw [wellFormed, List.all_eq_true] at hwf
  exact hwf

theorem processRows_lines (http : String → HttpResult) (header : List String) :
    ∀ rows : List (List String), ∀ line ∈ (processRows http header rows).1,
      ∃ x y, line = outLine x y ∧ pyFloatParse (pyStr x) = some x ∧
        pyFloatParse (pyStr y) = some y := by
  intro rows
  induction rows with
  | nil => simp [processRows]
  | cons vals rest ih =>
    intro line hline
    simp only [processRows] at hline
    cases hdg : dictGet header vals "Street Address" with
    | none => rw [hdg] at hline ; simp at hline
    | some o =>
      cases o with
      | none => rw [hdg] at hline ; simp at hline
      | some sa =>
        rw [hdg] at hline
        simp only at hline
        rcases List.mem_append.mp hline with h | h
        · rw [rowLine_eq] at h
          cases hg : nominatim_geocode http (sa ++ " Boulder CO") with
          | none => rw [hg] at h ; simp at h
          | some p =>
            rw [hg] at h
            simp at h
            exact ⟨p.1, p.2, h, pyFloatParse_pyStr _, pyFloatParse_pyStr _⟩
        · exact ih line h

/-- C1: for every input CSV row whose address the geocoder resolves to a
(lon, lat) pair, the transform emits exactly one output row whose x is the
returned lon, whose y is the returned lat, and whose third field is the
constant "Residential".  Formally: on well-formed input the output file is
exactly the header line followed by the per-row filterMap of `resolvedLine`
(one optional line per input row, in order), and `resolvedLine` maps a row
the geocoder resolves to `(x, y)` to the single line `outLine x y`. -/
theorem claim_C1_resolved_rows (inp : InputCsv) (old : Option (List String))
    (http : String → HttpResult) (hwf : wellFormed inp = true) :
    (transform false old inp http).fileLines =
      some (headerLine :: inp.rows.filterMap (resolvedLine http inp.header)) ∧
    ∀ vals sa x y, dictGet inp.header vals "Street Address" = some (some sa) →
      nominatim_geocode http (sa ++ " Boulder CO") = some (x, y) →
      resolvedLine http inp.header vals = some (outLine x y) := by
  constructor
  · rw [transform_unlocked,
      processRows_wf http inp.header inp.rows (wellFormed_rows hwf)]
  · intro vals sa x y h1 h2
    simp [resolvedLine, h1, h2]

/-- Witness for C1 at a concrete one-row input resolved to (-105.27, 40.01). -/
theorem claim_C1_witness :
    wellFormed wInp = true ∧
    ((transform false none wInp wHttp).fileLines =
      some (headerLine :: wInp.rows.filterMap (resolvedLine wHttp wInp.header)) ∧
    ∀ vals sa x y, dictGet wInp.header vals "Street Address" = some (some sa) →
      nominatim_geocode wHttp (sa ++ " Boulder CO") = some (x, y) →
      resolvedLine wHttp wInp.header vals = some (outLine x y)) :=
  ⟨by decide, claim_C1_resolved_rows wInp none wHttp (by decide)⟩

/-- C2: the geocoder is total at its boundary (its model returns a value for
every oracle outcome, no exception reaches the caller) and refines the spec
contract `geocodeSpec`: on HTTP success with a non-empty result array it
returns the first result's lon and lat parsed as floats, and on every other
outcome (raised request, empty result array, missing key, unparseable
coordinate) it returns the not-found value `none`. -/
theorem claim_C2_geocoder_total (http : String → HttpResult) (address : String) :
    nominatim_geocode http address = geocodeSpec (http address) ∧
    (http address = HttpResult.exn → nominatim_geocode http address = none) ∧
    (http address = HttpResult.ok [] → nominatim_geocode http address = none) := by
  refine ⟨?_, ?_, ?_⟩
  · unfold nominatim_geocode geocodeSpec
    cases http address with
    | exn => rfl
    | ok rs => cases rs with
      | nil => rfl
      | cons e t => rfl
  · intro h
    unfold nominatim_geocode
    rw [h]
  · intro h
    unfold nominatim_geocode
    rw [h]

/-- Witness for C2 at a concrete always-raising oracle. -/
theorem claim_C2_witness :
    nominatim_geocode exnHttp "1234 Main St Boulder CO" =
      geocodeSpec (exnHttp "1234 Main St Boulder CO") ∧
    nominatim_geocode exnHttp "1234 Main St Boulder CO" = none :=
  ⟨(claim_C2_geocoder_total exnHttp "1234 Main St Boulder CO").1,
    (claim_C2_geocoder_total exnHttp "1234 Main St Boulder CO").2.1 rfl⟩

/-- C3: if the output file exists and is locked at transform start, the step
aborts immediately and atomically: the old file is untouched, no row (not
even the header) is written, the locked condition is the only reported
event, no exception escapes, and the result does not depend on the input
file or on the geocoder (no input row is read, no geocode call happens). -/
theorem claim_C3_locked_abort (f : List String) (inp inp2 : InputCsv)
    (http http2 : String → HttpResult) :
    transform true (some f) inp http =
      { fileLines := some f, trace := [Event.lockedReport], err := none } ∧
    transform true (some f) inp http = transform true (some f) inp2 http2 := by
  constructor <;> simp [transform]

/-- C4 counterexample: the claim says a failed GET is both reported and
propagated; at the concrete network-error outcome the plain extract
(Lab2ETL.py / GSheetsETL_Lab2.py) propagates but does not report, and the
final_project2.py extract reports but does not propagate, so the conjunction
fails for every variant. -/
theorem claim_C4_cex :
    ¬((extract FetchOutcome.netError).reported = true ∧
      (extract FetchOutcome.netError).raised = true) ∧
    ¬((extractFP2 FetchOutcome.netError).reported = true ∧
      (extractFP2 FetchOutcome.netError).raised = true) := by
  constructor <;> simp [extract, extractFP2]

/-- C4 amended: when the GET cannot complete, extract fails with a
network-error condition and attempts no retry (exactly one GET in every
run); the plain variants propagate the exception to the caller without
reporting it and write nothing, while the final_project2 variant reports the
error, swallows it and writes nothing. -/
theorem claim_C4_amended :
    extract FetchOutcome.netError = ⟨none, false, true, 1⟩ ∧
    extractFP2 FetchOutcome.netError = ⟨none, true, false, 1⟩ ∧
    ∀ f : FetchOutcome, (extract f).getCalls = 1 ∧ (extractFP2 f).getCalls = 1 := by
  refine ⟨rfl, rfl, ?_⟩
  intro f
  cases f <;> exact ⟨rfl, rfl⟩

/-- C5 counterexample: with a geocoder result whose longitude string is
`inf`, the transform writes a data row whose x value is positive infinity —
parseable by `float()` but not finite — so the claimed finiteness invariant
fails. -/
theorem claim_C5_cex :
    (transform false none cexInp cexHttp).fileLines =
      some [headerLine, outLine (PyFloat.inf false) (PyFloat.finite ⟨4001, -2⟩)] ∧
    isFinite (PyFloat.inf false) = false := by
  constructor
  · decide
  · rfl

/-- C5 amended: every data row the transform writes has x and y values that
round-trip through `float()` (so both fields of the written line are
parseable floating-point numbers, and malformed coordinate values are
excluded entirely rather than defaulted) — but finiteness is not enforced:
infinity and NaN strings from the geocoder are parseable and pass through. -/
theorem claim_C5_amended (inp : InputCsv) (old : Option (List String))
    (http : String → HttpResult) :
    ∀ line ∈ (transform false old inp http).fileLines.getD [],
      line = headerLine ∨
        ∃ x y, line = outLine x y ∧ pyFloatParse (pyStr x) = some x ∧
          pyFloatParse (pyStr y) = some y := by
  intro line hline
  rw [transform_unlocked] at hline
  simp only [Option.getD_some] at hline
  rcases List.mem_cons.mp hline with h | h
  · exact Or.inl h
  · exact Or.inr (processRows_lines http inp.header inp.rows line h)

/-- Witness for C5 (amended) at a concrete resolved row. -/
theorem claim_C5_witness :
    outLine (PyFloat.finite ⟨-10527, -2⟩) (PyFloat.finite ⟨4001, -2⟩) ∈
      (transform false none wInp wHttp).fileLines.getD [] ∧
    (outLine (PyFloat.finite ⟨-10527, -2⟩) (PyFloat.finite ⟨4001, -2⟩) = headerLine ∨
      ∃ x y, outLine (PyFloat.finite ⟨-10527, -2⟩) (PyFloat.finite ⟨4001, -2⟩) =
          outLine x y ∧
        pyFloatParse (pyStr x) = some x ∧ pyFloatParse (pyStr y) = some y) :=
  ⟨by decide, claim_C5_amended wInp none wHttp _ (by decide)⟩

/-- C6: a row the geocoder does not resolve produces no output row — deleting
such a row from the input leaves the output data rows unchanged — and the
number of output data rows never exceeds the number of input data rows. -/
theorem claim_C6_not_found_dropped (header : List String)
    (pre post : List (List String)) (r : List String)
    (old : Option (List String)) (http : String → HttpResult) (ds : List String)
    (h1 : (transform false old ⟨header, pre ++ r :: post⟩ http).fileLines =
      some (headerLine :: ds)) :
    ds.length ≤ (pre ++ r :: post).length ∧
    (wellFormed ⟨header, pre ++ r :: post⟩ = true →
      resolvedLine http header r = none →
      (transform false old ⟨header, pre ++ post⟩ http).fileLines =
        some (headerLine :: ds)) := by
  rw [transform_unlocked] at h1
  simp only [TransResult.mk.injEq] at h1
  have hds : ds = (processRows http header (pre ++ r :: post)).1 := by
    have := Option.some.inj h1
    exact (List.cons.injEq .. ▸ this).2.symm
  constructor
  · rw [hds]
    exact processRows_len http header (pre ++ r :: post)
  · intro hwf hnone
    have hall : ∀ vals ∈ pre ++ r :: post, isGoodRow header vals = true :=
      wellFormed_rows hwf
    have hall2 : ∀ vals ∈ pre ++ post, isGoodRow header vals = true := by
      intro vals hv
      apply hall
      rcases List.mem_append.mp hv with h | h
      · exact List.mem_append.mpr (Or.inl h)
      · exact List.mem_append.mpr (Or.inr (List.mem_cons_of_mem r h))
    rw [transform_unlocked]
    simp only [TransResult.mk.injEq]
    rw [processRows_wf http header (pre ++ post) hall2]
    rw [hds, processRows_wf http header (pre ++ r :: post) hall]
    simp [List.filterMap_append, List.filterMap_cons, hnone]

/-- Witness for C6: a two-row input whose second row is unresolvable yields
the same single data row as the input without it. -/
theorem claim_C6_witness :
    ((transform false none ⟨["Street Address"], [["1234 Main St"]] ++ ["99 Nowhere"] :: []⟩
        wHttp).fileLines =
      some (headerLine ::
        [outLine (PyFloat.finite ⟨-10527, -2⟩) (PyFloat.finite ⟨4001, -2⟩)])) ∧
    ([outLine (PyFloat.finite ⟨-10527, -2⟩) (PyFloat.finite ⟨4001, -2⟩)].length ≤
        ([["1234 Main St"]] ++ ["99 Nowhere"] :: []).length ∧
      (wellFormed ⟨["Street Address"], [["1234 Main St"]] ++ ["99 Nowhere"] :: []⟩ = true →
        resolvedLine wHttp ["Street Address"] ["99 Nowhere"] = none →
        (transform false none ⟨["Street Address"], [["1234 Main St"]] ++ []⟩
            wHttp).fileLines =
          some (headerLine ::
            [outLine (PyFloat.finite ⟨-10527, -2⟩) (PyFloat.finite ⟨4001, -2⟩)]))) :=
  ⟨by decide, claim_C6_not_found_dropped ["Street Address"] [["1234 Main St"]] []
    ["99 Nowhere"] none wHttp _ (by decide)⟩

/-- C7: transform is idempotent — with the output path unlocked and the input
and geocoder behaviour unchanged, a second run (whose pre-existing output
file is whatever the first run wrote) produces identical output file
contents. -/
theorem claim_C7_idempotent (old : Option (List String)) (inp : InputCsv)
    (http : String → HttpResult) :
    (transform false ((transform false old inp http).fileLines) inp http).fileLines =
      (transform false old inp http).fileLines := by
  rw [transform_unlocked, transform_unlocked]

/-- C8: if the input header lacks a `Street Address` column and there is at
least one data row, the transform raises a KeyError on the first data row —
after the header line was already written but before any geocode call or
sleep — and the exception escapes the step uncaught. -/
theorem claim_C8_missing_column (header : List String) (vals : List String)
    (rest : List (List String)) (old : Option (List String))
    (http : String → HttpResult) (h : "Street Address" ∉ header) :
    transform false old ⟨header, vals :: rest⟩ http =
      { fileLines := some [headerLine], trace := [], err := some PyErr.keyError } := by
  rw [transform_unlocked]
  simp [processRows, dictGet_eq_none header vals _ h]

/-- Witness for C8 at a concrete header without the required column. -/
theorem claim_C8_witness :
    "Street Address" ∉ ["Name"] ∧
    transform false none ⟨["Name"], ["1234 Main St"] :: []⟩ wHttp =
      { fileLines := some [headerLine], trace := [], err := some PyErr.keyError } :=
  ⟨by decide, claim_C8_missing_column ["Name"] ["1234 Main St"] [] none wHttp (by decide)⟩

/-- C9: on well-formed input the trace is exactly, per input row in order,
the row's geocode call immediately followed by the fixed sleep; hence there
is exactly one sleep per input data row, the sleep happens after every row's
geocode call whatever its outcome, and the geocoder is never invoked twice
without an intervening sleep. -/
theorem claim_C9_throttle (inp : InputCsv) (old : Option (List String))
    (http : String → HttpResult) (hwf : wellFormed inp = true) :
    (transform false old inp http).trace = inp.rows.flatMap (rowEvents inp.header) ∧
    ((transform false old inp http).trace.filter isSleep).length = inp.rows.length ∧
    throttleOk ((transform false old inp http).trace) = true ∧
    ∀ vals ∈ inp.rows, ∃ a, rowEvents inp.header vals =
      [Event.geocodeCall a, Event.sleep] := by
  have hall := wellFormed_rows hwf
  have ht : (transform false old inp http).trace =
      inp.rows.flatMap (rowEvents inp.header) := by
    rw [transform_unlocked, processRows_wf http inp.header inp.rows hall]
  refine ⟨ht, ?_, ?_, ?_⟩
  · rw [ht]
    exact sleeps_flatMap inp.header inp.rows hall
  · rw [ht]
    exact throttleOkAux_flatMap inp.header inp.rows hall
  · intro vals hv
    have hg := hall vals hv
    unfold isGoodRow at hg
    cases hdg : dictGet inp.header vals "Street Address" with
    | none => rw [hdg] at hg ; simp at hg
    | some o =>
      cases o with
      | none => rw [hdg] at hg ; simp at hg
      | some sa => exact ⟨sa ++ " Boulder CO", by simp [rowEvents, hdg]⟩

/-- Witness for C9 at a concrete one-row input. -/
theorem claim_C9_witness :
    wellFormed wInp = true ∧
    ((transform false none wInp wHttp).trace = wInp.rows.flatMap (rowEvents wInp.header) ∧
    ((transform false none wInp wHttp).trace.filter isSleep).length = wInp.rows.length ∧
    throttleOk ((transform false none wInp wHttp).trace) = true ∧
    ∀ vals ∈ wInp.rows, ∃ a, rowEvents wInp.header vals =
      [Event.geocodeCall a, Event.sleep]) :=
  ⟨by decide, claim_C9_throttle wInp none wHttp (by decide)⟩

/-- C10: the cleanup re-parse inside the Lab2ETL transform always succeeds on
the geocoder's float values and returns the value unchanged (its ValueError
branch is unreachable), and consequently the class-based transform that
omits the re-parse is behaviourally equivalent: same row loop results and
same transform results for every input, oracle and file-system state. -/
theorem claim_C10_reparse_equiv :
    (∀ v : PyFloat, pyFloatParse (stripClean (pyStr v)) = some v) ∧
    (∀ (http : String → HttpResult) (header : List String)
      (rows : List (List String)),
      processRows http header rows = processRowsG http header rows) ∧
    (∀ (locked : Bool) (old : Option (List String)) (inp : InputCsv)
      (http : String → HttpResult),
      transform locked old inp http = transformG locked old inp http) := by
  refine ⟨reparse_pyStr, ?_, ?_⟩
  · intro http header rows
    exact processRowsG_wf http header rows
  · intro locked old inp http
    unfold transform transformG
    rw [processRowsG_wf]

end WnvEtl
